import Mathlib

/-!
Verification of the normalize → metrics → score pipeline.

Shallow embedding of the repository's core processing code
(`normalize.py`, `metrics.py`, `scoring.py`) over a model of Python/JSON
values, together with theorems settling the specification's claims.

Python exceptions are modelled by `Option`: a function returning `none`
models a raised exception reaching the caller.
-/

set_option maxHeartbeats 1000000

namespace Pipeline

/-- Model of a JSON / basic Python value as passed between the pipeline
stages.  Numbers are modelled as integers (the tool outputs the pipeline
consumes carry integer line numbers and counts). -/
inductive JValue where
  | null
  | bool (b : Bool)
  | int (n : ℤ)
  | str (s : String)
  | arr (xs : List JValue)
  | obj (kvs : List (String × JValue))

namespace JValue

/-- Equality test between two hashable (flat) values, as used for Python
dictionary keys.  Containers are unhashable and never reach a key
position (the embedding raises beforehand), so they compare unequal. -/
def keyEq : JValue → JValue → Bool
  | .null, .null => true
  | .bool a, .bool b => a == b
  | .int a, .int b => a == b
  | .str a, .str b => a == b
  | _, _ => false

/-- Test whether a value is the string `s`. -/
def isStr (v : JValue) (s : String) : Bool :=
  match v with
  | .str t => t == s
  | _ => false

/-- Python truthiness: `None`, `False`, `0`, `""`, `[]`, `{}` are falsy. -/
def truthy : JValue → Bool
  | .null => false
  | .bool b => b
  | .int n => n ≠ 0
  | .str s => s ≠ ""
  | .arr xs => !xs.isEmpty
  | .obj kvs => !kvs.isEmpty

/-- Dictionary key lookup (`d[k]` / `d.get(k)` on a mapping value):
first matching key. -/
def lookup (k : String) : JValue → Option JValue
  | .obj kvs => kvs.lookup k
  | _ => none

/-- Python `d.get(k)` (default `None`) on a mapping value. -/
def getD (v : JValue) (k : String) : JValue :=
  (v.lookup k).getD .null

/-- Python hashability: lists and dicts are unhashable (using one as a
dictionary key raises `TypeError`). -/
def hashable : JValue → Bool
  | .arr _ => false
  | .obj _ => false
  | _ => true

end JValue

/-- Python `a or b` for two values: `a` if truthy, else `b`. -/
def pyOr (a b : JValue) : JValue := if a.truthy then a else b

/-- Python `s.startswith(p)` (structural definition so that concrete
instances evaluate). -/
def strBegins (s p : String) : Bool := p.toList.isPrefixOf s.toList

/-- Python `s.lower()` (ASCII case folding, structurally). -/
def pyLower (s : String) : String := String.mk (s.toList.map Char.toLower)

/-! ## A model of `json.loads`

A recursive-descent JSON parser over the character list of the input.
Numeric literals are restricted to integers, matching the integer-only
numeric fragment of the `JValue` model.  Parsing failure models the
`json.JSONDecodeError` raised by `json.loads`. -/

namespace Json

def isSpaceChar (c : Char) : Bool := c = ' ' || c = '\t' || c = '\n' || c = '\r'

def dropSpaces (cs : List Char) : List Char := cs.dropWhile isSpaceChar

/-- Parse the body of a string literal (the opening quote already
consumed), handling the common escape sequences. -/
def stringTail : List Char → Option (List Char × List Char)
  | [] => none
  | '"' :: rest => some ([], rest)
  | '\\' :: e :: rest =>
      (match e with
       | '"' => some '"'
       | '\\' => some '\\'
       | '/' => some '/'
       | 'n' => some '\n'
       | 't' => some '\t'
       | 'r' => some '\r'
       | _ => none).bind fun c =>
        (stringTail rest).map fun (s, r) => (c :: s, r)
  | c :: rest => (stringTail rest).map fun (s, r) => (c :: s, r)

def digitsVal : List Char → ℕ → ℕ
  | [], acc => acc
  | c :: cs, acc => digitsVal cs (acc * 10 + (c.toNat - '0'.toNat))

/-- Parse an integer literal; a fractional or exponent suffix is
rejected (the model carries no floats). -/
def intToken (cs : List Char) : Option (ℤ × List Char) :=
  let (neg, cs') := match cs with
    | '-' :: t => (true, t)
    | _ => (false, cs)
  let ds := cs'.takeWhile Char.isDigit
  let rest := cs'.dropWhile Char.isDigit
  if ds.isEmpty then none
  else match rest with
    | '.' :: _ => none
    | 'e' :: _ => none
    | 'E' :: _ => none
    | _ =>
      let n : ℤ := digitsVal ds 0
      some (if neg then -n else n, rest)

/-- Insert a key into an object under construction, Python style: a
duplicate key overwrites the earlier value in place. -/
def objInsert (k : String) (v : JValue) : List (String × JValue) → List (String × JValue)
  | [] => [(k, v)]
  | (k', v') :: t => if k' = k then (k', v) :: t else (k', v') :: objInsert k v t

mutual

def jsonValue : ℕ → List Char → Option (JValue × List Char)
  | 0, _ => none
  | fuel + 1, cs =>
    match dropSpaces cs with
    | 'n' :: 'u' :: 'l' :: 'l' :: rest => some (.null, rest)
    | 't' :: 'r' :: 'u' :: 'e' :: rest => some (.bool true, rest)
    | 'f' :: 'a' :: 'l' :: 's' :: 'e' :: rest => some (.bool false, rest)
    | '"' :: rest =>
        (stringTail rest).map fun (s, r) => (.str (String.mk s), r)
    | '[' :: rest =>
        (match dropSpaces rest with
         | ']' :: r => some (.arr [], r)
         | other => (jsonItems fuel other).map fun (xs, r) => (.arr xs, r))
    | '{' :: rest =>
        (match dropSpaces rest with
         | '}' :: r => some (.obj [], r)
         | other =>
            (jsonFields fuel other).map fun (kvs, r) =>
              (.obj (kvs.foldl (fun acc kv => objInsert kv.1 kv.2 acc) []), r))
    | other => (intToken other).map fun (n, r) => (.int n, r)

def jsonItems : ℕ → List Char → Option (List JValue × List Char)
  | 0, _ => none
  | fuel + 1, cs =>
    (jsonValue fuel cs).bind fun (v, rest) =>
      match dropSpaces rest with
      | ',' :: r => (jsonItems fuel (dropSpaces r)).map fun (xs, r') => (v :: xs, r')
      | ']' :: r => some ([v], r)
      | _ => none

def jsonFields : ℕ → List Char → Option (List (String × JValue) × List Char)
  | 0, _ => none
  | fuel + 1, cs =>
    match dropSpaces cs with
    | '"' :: rest =>
      (stringTail rest).bind fun (k, r1) =>
        match dropSpaces r1 with
        | ':' :: r2 =>
          (jsonValue fuel r2).bind fun (v, r3) =>
            match dropSpaces r3 with
            | ',' :: r4 =>
                (jsonFields fuel (dropSpaces r4)).map fun (kvs, r') =>
                  ((String.mk k, v) :: kvs, r')
            | '}' :: r4 => some ([(String.mk k, v)], r4)
            | _ => none
        | _ => none
    | _ => none

end

end Json

/-- Model of `json.loads`: parse a complete JSON document; `none`
models the raised decode error. -/
def json_loads (s : String) : Option JValue :=
  (Json.jsonValue (2 * s.length + 2) s.toList).bind fun (v, rest) =>
    if (Json.dropSpaces rest).isEmpty then some v else none

/-! ## `normalize.py` (under `src/`)

Embedding of `normalize_flake8` and `normalize_bandit` from
`backend/app/services/processors/normalize.py`. -/

/-- One tally bump: `d[k] = d.get(k, 0) + 1` on an insertion-ordered
dictionary with `JValue` keys. -/
def bump (k : JValue) : List (JValue × ℕ) → List (JValue × ℕ)
  | [] => [(k, 1)]
  | (k', v) :: t => if JValue.keyEq k' k then (k', v + 1) :: t else (k', v) :: bump k t

/-- Tally a list of keys into an insertion-ordered count dictionary.
An unhashable key models the `TypeError` Python raises when a list or
dict is used as a dictionary key. -/
def tally (ks : List JValue) : Option (List (JValue × ℕ)) :=
  ks.foldlM (fun acc k => if k.hashable then some (bump k acc) else none) []

/-- One record of the `issues` list built by `normalize_flake8`; absent
fields are `None` (`dict.get` default). -/
structure FlakeIssue where
  file : JValue
  line : JValue
  col : JValue
  code : JValue
  message : JValue
  source_line : JValue

/-- The dictionary returned by `normalize_flake8`. -/
structure FlakeNorm where
  tool : String
  issues : List FlakeIssue
  /-- `counts.total` -/
  total : ℕ
  /-- `counts.by_code` -/
  by_code : List (JValue × ℕ)

/-- The `if isinstance(raw, str): raw = json.loads(raw) (or {} on
failure)` prelude shared by the normalizers. -/
def parseIfStr (raw : JValue) : JValue :=
  match raw with
  | .str s => (json_loads s).getD (.obj [])
  | v => v

/-- Build one issue record from a raw flake8 item `it`, with
`fileDefault` standing for the `or file_path` fallback of the
dict-shaped input (`.null`, which is falsy, for the list shape). -/
def flakeIssueOf (fileDefault : JValue) (it : JValue) : FlakeIssue :=
  { file := pyOr (it.getD "filename") fileDefault
    line := it.getD "line_number"
    col := it.getD "column_number"
    code := it.getD "code"
    message := it.getD "text"
    source_line := it.getD "physical_line" }

/-- `normalize_flake8` (src).  `none` models an uncaught exception
(only possible from the tally of unhashable `code` values). -/
def normalize_flake8 (raw : JValue) : Option FlakeNorm :=
  let raw := parseIfStr raw
  let issues : List FlakeIssue :=
    match raw with
    | .obj kvs =>
        kvs.foldl (fun acc kv =>
          match kv.2 with
          | .arr fileIssues =>
              acc ++ fileIssues.filterMap (fun it =>
                match it with
                | .obj _ => some (flakeIssueOf (.str kv.1) it)
                | _ => none)
          | _ => acc) []
    | .arr items =>
        items.filterMap (fun it =>
          match it with
          | .obj _ => some (flakeIssueOf .null it)
          | _ => none)
    | _ => []
  (tally (issues.map fun it => pyOr it.code (.str "UNKNOWN"))).map fun bc =>
    { tool := "flake8", issues := issues, total := issues.length, by_code := bc }

/-- One record of the `issues` list built by `normalize_bandit`. -/
structure BanditIssue where
  file : JValue
  line : JValue
  test_id : JValue
  test_name : JValue
  severity : JValue
  confidence : JValue
  message : JValue
  more_info : JValue

/-- The dictionary returned by `normalize_bandit`. -/
structure BanditNorm where
  tool : String
  issues : List BanditIssue
  /-- `counts.total` -/
  total : ℕ
  /-- `counts.by_severity` -/
  by_severity : List (JValue × ℕ)
  /-- `counts.by_confidence` -/
  by_confidence : List (JValue × ℕ)

def banditIssueOf (r : JValue) : BanditIssue :=
  { file := r.getD "filename"
    line := r.getD "line_number"
    test_id := r.getD "test_id"
    test_name := r.getD "test_name"
    severity := r.getD "issue_severity"
    confidence := r.getD "issue_confidence"
    message := r.getD "issue_text"
    more_info := r.getD "more_info" }

/-- `normalize_bandit` (src).  `none` models an uncaught exception. -/
def normalize_bandit (raw : JValue) : Option BanditNorm :=
  let raw := parseIfStr raw
  let results : List JValue :=
    match raw with
    | .obj _ =>
        match pyOr (raw.getD "results") (.arr []) with
        | .arr xs => xs
        | _ => []
    | _ => []
  let issues := results.filterMap (fun r =>
    match r with
    | .obj _ => some (banditIssueOf r)
    | _ => none)
  do
    let bs ← tally (issues.map fun it => pyOr it.severity (.str "UNDEFINED"))
    let bc ← tally (issues.map fun it => pyOr it.confidence (.str "UNDEFINED"))
    some { tool := "bandit", issues := issues, total := issues.length,
           by_severity := bs, by_confidence := bc }

/-! ## `scoring.py`

Embedding of `clamp`, `_safe_int`, `_get_loc` and `compute_score` from
`backend/app/services/scoring/scoring.py`.  Arithmetic is idealized
over exact rationals/reals (Python computes with floats); `math.log1p`
is a partial function raising a `ValueError` at arguments `≤ -1`. -/

/-- `clamp(x, lo, hi) = max(lo, min(hi, x))`. -/
def clamp (x lo hi : ℝ) : ℝ := max lo (min hi x)

/-- `_safe_int(v, default)`: Python `int(v)` with the exception caught.
`int()` succeeds on integers, booleans and integer-literal strings. -/
def safe_int (v : JValue) (default : ℤ) : ℤ :=
  match v with
  | .int n => n
  | .bool b => if b then 1 else 0
  | .str s => (s.trim.toInt?).getD default
  | _ => default

/-- Python `k in t`: key membership for a mapping, substring test for a
string, element equality for a list; `none` models the `TypeError` on
other values. -/
def pyContains (t : JValue) (k : String) : Option Bool :=
  match t with
  | .obj kvs => some (kvs.any fun kv => kv.1 == k)
  | .str s => some (decide (1 < (s.splitOn k).length))
  | .arr xs => some (xs.any fun x => x.isStr k)
  | _ => none

/-- `metrics.get("totals", {}) if isinstance(metrics, dict) else {}`. -/
def totalsOf (metrics : JValue) : JValue :=
  match metrics with
  | .obj _ => (metrics.lookup "totals").getD (.obj [])
  | _ => .obj []

/-- The candidate LOC keys probed by `_get_loc`, in order. -/
def locKeys : List String := ["loc", "lines_of_code", "total_loc", "py_loc"]

/-- The key loop of `_get_loc`; `none` models a raised exception
(`k in totals` on a non-container, or `.get` on a non-mapping). -/
def get_loc_aux (totals : JValue) : List String → Option ℤ
  | [] => some 1000
  | k :: ks => do
      let mem ← pyContains totals k
      if mem then
        match totals with
        | .obj _ =>
            let loc := safe_int (totals.getD k) 0
            if 0 < loc then some loc else get_loc_aux totals ks
        | _ => none
      else get_loc_aux totals ks

/-- `_get_loc(metrics)`: first positive coerced value among the LOC
keys of `totals`, else the fallback `1000`. -/
def get_loc (metrics : JValue) : Option ℤ :=
  get_loc_aux (totalsOf metrics) locKeys

/-- The `low`/`medium`/`high` extraction at the head of
`compute_score`; `none` models the `AttributeError` from `.get` when
`by_severity` is present but not a mapping. -/
def severityCounts (metrics : JValue) : Option (ℤ × ℤ × ℤ) :=
  let totals := totalsOf metrics
  let sev : JValue :=
    match totals with
    | .obj _ => (totals.lookup "by_severity").getD (.obj [])
    | _ => .obj []
  match sev with
  | .obj _ =>
      some (safe_int ((sev.lookup "low").getD (.int 0)) 0,
            safe_int ((sev.lookup "medium").getD (.int 0)) 0,
            safe_int ((sev.lookup "high").getD (.int 0)) 0)
  | _ => none

/-- Round-half-to-even on a real number (the tie behavior of Python's
`round`). -/
noncomputable def roundEven (x : ℝ) : ℤ :=
  if Int.fract x = 1 / 2 then (if Even ⌊x⌋ then ⌊x⌋ else ⌊x⌋ + 1)
  else round x

/-- Python `round(x, 2)` idealized over the reals. -/
noncomputable def round2 (x : ℝ) : ℝ := (roundEven (x * 100) : ℝ) / 100

/-- `math.log1p`: defined above `-1`; `none` models the `ValueError`
(math domain error) raised at or below `-1`. -/
noncomputable def pyLog1p (x : ℚ) : Option ℝ :=
  if -1 < x then some (Real.log (1 + (x : ℝ))) else none

/-- The tuned multipliers of `compute_score`. -/
def A_LOW : ℚ := 6
def A_MED : ℚ := 14
def A_HIGH : ℚ := 45

/-- The dictionary returned by `compute_score`. -/
structure ScoreReport where
  final_score : ℝ
  penalty : ℝ
  weight_low : ℚ
  weight_medium : ℚ
  weight_high : ℚ
  breakdown_low : ℤ
  breakdown_medium : ℤ
  breakdown_high : ℤ
  loc : ℤ
  density_low : ℝ
  density_medium : ℝ
  density_high : ℝ
  penalty_low : ℝ
  penalty_medium : ℝ
  penalty_high : ℝ

/-- The density `(count / loc) * 1000.0` (issues per KLOC). -/
def dens (count loc : ℤ) : ℚ := ((count : ℚ) / (loc : ℚ)) * 1000

/-- The arithmetic core of `compute_score`, after the `low`, `medium`,
`high` and `loc` values have been extracted (`loc` already clamped to
at least 1). -/
noncomputable def scoreCore (low medium high loc : ℤ) : Option ScoreReport := do
  let d_low : ℚ := dens low loc
  let d_med : ℚ := dens medium loc
  let d_high : ℚ := dens high loc
  let l_low ← pyLog1p d_low
  let l_med ← pyLog1p d_med
  let l_high ← pyLog1p d_high
  let p_low : ℝ := (A_LOW : ℝ) * l_low
  let p_med : ℝ := (A_MED : ℝ) * l_med
  let p_high : ℝ := (A_HIGH : ℝ) * l_high
  let penalty : ℝ := p_low + p_med + p_high
  let final_score : ℝ := clamp (100 - penalty) 0 100
  some { final_score := round2 final_score
         penalty := round2 penalty
         weight_low := A_LOW, weight_medium := A_MED, weight_high := A_HIGH
         breakdown_low := low, breakdown_medium := medium, breakdown_high := high
         loc := loc
         density_low := round2 (d_low : ℝ)
         density_medium := round2 (d_med : ℝ)
         density_high := round2 (d_high : ℝ)
         penalty_low := round2 p_low
         penalty_medium := round2 p_med
         penalty_high := round2 p_high }

/-- `compute_score` (src).  `none` models an uncaught exception. -/
noncomputable def compute_score (metrics : JValue) : Option ScoreReport := do
  let (low, medium, high) ← severityCounts metrics
  let loc0 ← get_loc metrics
  scoreCore low medium high (max 1 loc0)

/-! ## `metrics.py`

Embedding of `_read_unified_issues_from_norm_objects`, `_risk_score`
and `build_metrics` from `backend/app/services/processors/metrics.py`. -/

/-- `_read_unified_issues_from_norm_objects`. -/
def read_unified_issues (norm_objects : List JValue) : List JValue :=
  norm_objects.foldl (fun acc obj =>
    match obj with
    | .obj _ =>
        match obj.getD "issues" with
        | .arr issues =>
            if (obj.getD "tool").isStr "flake8" || (obj.getD "tool").isStr "bandit" then
              acc ++ issues.filter (fun it =>
                match it with
                | .obj _ => true
                | _ => false)
            else acc
        | _ => acc
    | _ => acc) []

/-- `_risk_score(low, medium, high) = (high * 10) + (medium * 4) + (low * 1)`. -/
def risk_score (low medium high : ℕ) : ℕ := high * 10 + medium * 4 + low * 1

/-- `(v or default).lower()`: `none` models the `AttributeError` when
the truthy value is not a string. -/
def pyLowerOr (v : JValue) (dflt : String) : Option String :=
  match pyOr v (.str dflt) with
  | .str s => some (pyLower s)
  | _ => none

/-- Python `str()` of a value used inside the `f"{tool}:{rule_id}"`
key.  Flat values render exactly; the rendering of containers is
abbreviated (no claim depends on it, they only arise from degenerate
`rule_id` values). -/
def pyStrFlat : JValue → String
  | .null => "None"
  | .bool true => "True"
  | .bool false => "False"
  | .int n => toString n
  | .str s => s
  | .arr _ => "<list>"
  | .obj _ => "<dict>"

/-- A `{"low": _, "medium": _, "high": _}` severity-count dictionary. -/
structure SevCounts where
  low : ℕ
  medium : ℕ
  high : ℕ

/-- `d[sev] += 1` on a severity-count dictionary (called with `sev`
already coerced into the three canonical levels). -/
def SevCounts.bumpKey (c : SevCounts) (sev : String) : SevCounts :=
  if sev = "medium" then { c with medium := c.medium + 1 }
  else if sev = "high" then { c with high := c.high + 1 }
  else { c with low := c.low + 1 }

/-- Tally bump on a string-keyed count dictionary. -/
def bumpStr (k : String) : List (String × ℕ) → List (String × ℕ)
  | [] => [(k, 1)]
  | (k', v) :: t => if k' = k then (k', v + 1) :: t else (k', v) :: bumpStr k t

/-- `heatmap[file][sev] += 1`, creating the per-file zero dictionary on
first sight of the file. -/
def bumpHeatmap (file : JValue) (sev : String) :
    List (JValue × SevCounts) → List (JValue × SevCounts)
  | [] => [(file, SevCounts.bumpKey ⟨0, 0, 0⟩ sev)]
  | (f, c) :: t =>
      if JValue.keyEq f file then (f, c.bumpKey sev) :: t
      else (f, c) :: bumpHeatmap file sev t

/-- `heatmap.get(f, {"low": 0, "medium": 0, "high": 0})`. -/
def lookupHeatmap (k : JValue) : List (JValue × SevCounts) → SevCounts
  | [] => ⟨0, 0, 0⟩
  | (f, c) :: t => if JValue.keyEq f k then c else lookupHeatmap k t

/-- The mutable aggregation state of the `build_metrics` issue loop. -/
structure MetricsAcc where
  by_tool : List (String × ℕ)
  sev : SevCounts
  heatmap : List (JValue × SevCounts)
  rule_counts : List (String × ℕ)
  file_totals : List (JValue × ℕ)

/-- The initial aggregation state (`by_tool` and `by_severity`
initialized to zero for the known tools/severities). -/
def acc0 : MetricsAcc :=
  { by_tool := [("flake8", 0), ("bandit", 0)]
    sev := ⟨0, 0, 0⟩
    heatmap := []
    rule_counts := []
    file_totals := [] }

/-- One iteration of the `build_metrics` issue loop.  A non-mapping
entry is skipped; `none` models an uncaught exception (`.lower()` on a
truthy non-string `tool`/`severity`, or an unhashable `file` key). -/
def stepIssue (acc : MetricsAcc) (it : JValue) : Option MetricsAcc :=
  match it with
  | .obj _ => do
      let tool ← pyLowerOr (it.getD "tool") "unknown"
      let sev0 ← pyLowerOr (it.getD "severity") "low"
      let sev := if sev0 = "low" ∨ sev0 = "medium" ∨ sev0 = "high" then sev0 else "low"
      let rule_id := pyOr (it.getD "rule_id") (pyOr (it.getD "code") (.str "UNKNOWN"))
      let file := pyOr (it.getD "file") (.str "UNKNOWN_FILE")
      if file.hashable then
        some { by_tool := bumpStr tool acc.by_tool
               sev := acc.sev.bumpKey sev
               heatmap := bumpHeatmap file sev acc.heatmap
               rule_counts := bumpStr (tool ++ ":" ++ pyStrFlat rule_id) acc.rule_counts
               file_totals := bump file acc.file_totals }
      else none
  | _ => some acc

/-- Stable insertion keeping a list sorted descending by `key`
(matching the stability of Python's `list.sort(..., reverse=True)`). -/
def insertDesc {α : Type} (key : α → ℕ) (x : α) : List α → List α
  | [] => [x]
  | y :: ys => if key y < key x then x :: y :: ys else y :: insertDesc key x ys

/-- Stable sort, descending by `key`. -/
def sortDesc {α : Type} (key : α → ℕ) (l : List α) : List α :=
  l.foldl (fun acc x => insertDesc key x acc) []

/-- An element of `top_files`. -/
structure FileEntry where
  file : JValue
  issues : ℕ
  low : ℕ
  medium : ℕ
  high : ℕ

/-- An element of `top_refactor_priority`. -/
structure RefactorEntry where
  file : JValue
  risk : ℕ
  low : ℕ
  medium : ℕ
  high : ℕ
  total : ℕ

/-- An element of `most_recurring_issues`. -/
structure RecurringEntry where
  rule : String
  count : ℕ

/-- The dictionary returned by `build_metrics`. -/
structure MetricsReport where
  metrics_version : ℕ
  /-- `totals.issues` -/
  total_issues : ℕ
  /-- `totals.by_tool` -/
  by_tool : List (String × ℕ)
  /-- `totals.by_severity` -/
  by_severity : SevCounts
  /-- `totals.loc` -/
  loc : ℤ
  top_refactor_priority : List RefactorEntry
  heatmap : List (JValue × SevCounts)
  most_recurring_issues : List RecurringEntry
  top_files : List FileEntry

/-- `build_metrics(norm_objects, unified_issues)` (src).  `none` models
an uncaught exception from the issue loop. -/
def build_metrics (norm_objects : List JValue) (unified_issues : Option (List JValue)) :
    Option MetricsReport := do
  let unified := match unified_issues with
    | some u => u
    | none => read_unified_issues norm_objects
  let loc : ℤ := norm_objects.foldl (fun loc obj =>
    match obj with
    | .obj _ =>
        if (obj.getD "tool").isStr "bandit" then safe_int ((obj.lookup "loc").getD (.int 0)) 0
        else loc
    | _ => loc) 0
  let acc ← unified.foldlM stepIssue acc0
  let total_issues := (acc.by_tool.map Prod.snd).sum
  let top_files := sortDesc (fun e : FileEntry => e.issues)
    (acc.file_totals.map fun ft =>
      let hm := lookupHeatmap ft.1 acc.heatmap
      { file := ft.1, issues := ft.2, low := hm.low, medium := hm.medium, high := hm.high })
  let refactor_rank := sortDesc (fun e : RefactorEntry => e.risk)
    (acc.heatmap.map fun fc =>
      { file := fc.1
        risk := risk_score fc.2.low fc.2.medium fc.2.high
        low := fc.2.low, medium := fc.2.medium, high := fc.2.high
        total := fc.2.low + fc.2.medium + fc.2.high })
  let recurring := sortDesc (fun e : RecurringEntry => e.count)
    (acc.rule_counts.map fun kv => { rule := kv.1, count := kv.2 })
  some { metrics_version := 1
         total_issues := total_issues
         by_tool := acc.by_tool
         by_severity := acc.sev
         loc := loc
         top_refactor_priority := refactor_rank.take 5
         heatmap := acc.heatmap
         most_recurring_issues := recurring.take 10
         top_files := top_files.take 20 }

/-! ## The unified-schema normalizer

`metrics.py` is written against a "new normalize.py" that "already
emits unified-shaped issues for both tools" (its own comment), and the
spec designates that unified-schema normalizer as canonical; that file
is not among the sources, so it is modelled here from the spec
(§3 `UnifiedIssue`, §4.1 Normalizer). -/

def JValue.isObj : JValue → Bool
  | .obj _ => true
  | _ => false

/-- Modelled from the spec: style-tool category derivation by rule-code
prefix, first match wins — `F` → `bug_risk`, `E`/`W` → `style`,
`C` → `maintainability`, anything else or absent code → `style`.
(The unified-schema `normalize.py` is missing from the sources.) -/
def flakeCategory (code : JValue) : String :=
  match code with
  | .str s =>
      if strBegins s "F" then "bug_risk"
      else if strBegins s "E" || strBegins s "W" then "style"
      else if strBegins s "C" then "maintainability"
      else "style"
  | _ => "style"

/-- Modelled from the spec: style-tool severity — `medium` if the code
starts with `F`, else `low`. -/
def flakeSeverity (code : JValue) : String :=
  match code with
  | .str s => if strBegins s "F" then "medium" else "low"
  | _ => "low"

/-- Modelled from the spec: one style-tool `UnifiedIssue` record
(tool, rule_id, category, severity, confidence, file, line, message);
the file falls back to the outer grouping key of the mapping shape. -/
def unifiedFlakeIssue (fileDefault : JValue) (it : JValue) : JValue :=
  let code := it.getD "code"
  .obj [("tool", .str "flake8"),
        ("rule_id", code),
        ("category", .str (flakeCategory code)),
        ("severity", .str (flakeSeverity code)),
        ("confidence", .null),
        ("file", pyOr (it.getD "filename") fileDefault),
        ("line", it.getD "line_number"),
        ("message", it.getD "text")]

/-- Modelled from the spec: the normalized document of a tool —
`{tool, issues, counts:{total}, loc}` — with `loc` the LOC value the
source carried (zero when none did). -/
structure UnifiedNorm where
  tool : String
  issues : List JValue
  total : ℕ
  loc : ℤ

/-- The normalized document as the JSON value handed to
`build_metrics` as a norm object. -/
def UnifiedNorm.toJValue (n : UnifiedNorm) : JValue :=
  .obj [("tool", .str n.tool),
        ("issues", .arr n.issues),
        ("counts", .obj [("total", .int (n.total : ℤ))]),
        ("loc", .int n.loc)]

/-- Modelled from the spec: the style-tool normalizer — tolerates the
mapping, flat-list and JSON-string shapes, skips malformed records,
and emits `UnifiedIssue` records; malformed input yields an empty
issue list.  No LOC source exists for the style tool. -/
def normalize_flake8_unified (raw : JValue) : UnifiedNorm :=
  let raw := parseIfStr raw
  let issues : List JValue :=
    match raw with
    | .obj kvs =>
        kvs.foldl (fun acc kv =>
          match kv.2 with
          | .arr fileIssues =>
              acc ++ (fileIssues.filter JValue.isObj).map (unifiedFlakeIssue (.str kv.1))
          | _ => acc) []
    | .arr items => (items.filter JValue.isObj).map (unifiedFlakeIssue .null)
    | _ => []
  { tool := "flake8", issues := issues, total := issues.length, loc := 0 }

/-- Modelled from the spec: security-tool LOC extraction — read from
the tool's `metrics._totals.loc` field when present, zero otherwise. -/
def banditLoc (raw : JValue) : ℤ :=
  match ((raw.lookup "metrics").bind (JValue.lookup "_totals")).bind (JValue.lookup "loc") with
  | some (.int n) => n
  | _ => 0

/-- Modelled from the spec: one security-tool `UnifiedIssue` record —
category fixed to `security`, severity/confidence taken from the
tool's own `issue_severity`/`issue_confidence` fields lower-cased,
absent severity defaulting to `low`, absent confidence to null. -/
def unifiedBanditIssue (r : JValue) : JValue :=
  .obj [("tool", .str "bandit"),
        ("rule_id", r.getD "test_id"),
        ("category", .str "security"),
        ("severity", .str (match r.lookup "issue_severity" with
                           | some (.str s) => pyLower s
                           | _ => "low")),
        ("confidence", match r.lookup "issue_confidence" with
                       | some (.str s) => .str (pyLower s)
                       | _ => .null),
        ("file", r.getD "filename"),
        ("line", r.getD "line_number"),
        ("message", r.getD "issue_text")]

/-- Modelled from the spec: the security-tool normalizer — one raw
shape (an object with optional `results` list and optional `metrics`
object, or a JSON string of it), malformed records skipped, absent or
malformed input yielding an empty issue list, and the LOC carried
through. -/
def normalize_bandit_unified (raw : JValue) : UnifiedNorm :=
  let raw := parseIfStr raw
  let results : List JValue :=
    match raw.lookup "results" with
    | some (.arr xs) => xs
    | _ => []
  let issues := (results.filter JValue.isObj).map unifiedBanditIssue
  { tool := "bandit", issues := issues, total := issues.length, loc := banditLoc raw }

/-! ## Rounding lemmas -/

theorem roundEven_intCast (n : ℤ) : roundEven (n : ℝ) = n := by
  rw [roundEven, Int.fract_intCast, if_neg (by norm_num), round_intCast]

theorem floor_le_roundEven (x : ℝ) : ⌊x⌋ ≤ roundEven x := by
  rw [roundEven]
  split_ifs with h1 h2
  · exact le_refl _
  · omega
  · rw [round_eq]
    exact Int.floor_mono (by linarith)

theorem roundEven_le_ceil (x : ℝ) : roundEven x ≤ ⌈x⌉ := by
  have hfr : x - ⌊x⌋ = Int.fract x := Int.self_sub_floor x
  rw [roundEven]
  split_ifs with h1 h2
  · exact Int.floor_le_ceil x
  · have hx : (⌊x⌋ : ℝ) < x := by rw [h1] at hfr; linarith
    have := Int.lt_ceil.mpr hx
    omega
  · rw [round_eq]
    rcases lt_or_gt_of_ne h1 with hlt | hgt
    · have h3 : ⌊x + 1 / 2⌋ < ⌊x⌋ + 1 :=
        Int.floor_lt.mpr (by push_cast; linarith)
      have h4 := Int.floor_le_ceil x
      omega
    · have hlt1 : Int.fract x < 1 := Int.fract_lt_one x
      have h3 : ⌊x + 1 / 2⌋ < ⌊x⌋ + 2 :=
        Int.floor_lt.mpr (by push_cast; linarith)
      have h5 : (⌊x⌋ : ℝ) < x := by linarith
      have h6 := Int.lt_ceil.mpr h5
      omega

theorem roundEven_mono {x y : ℝ} (h : x ≤ y) : roundEven x ≤ roundEven y := by
  have hfx : x - ⌊x⌋ = Int.fract x := Int.self_sub_floor x
  have hfy : y - ⌊y⌋ = Int.fract y := Int.self_sub_floor y
  rcases lt_or_eq_of_le (Int.floor_mono h) with hf | hf
  · calc roundEven x ≤ ⌈x⌉ := roundEven_le_ceil x
      _ ≤ ⌊x⌋ + 1 := Int.ceil_le_floor_add_one x
      _ ≤ ⌊y⌋ := by omega
      _ ≤ roundEven y := floor_le_roundEven y
  · have hfr : Int.fract x ≤ Int.fract y := by rw [← hfx, ← hfy, ← hf]; linarith
    by_cases hA : Int.fract x = 1 / 2 <;> by_cases hC : Int.fract y = 1 / 2
    · simp only [roundEven, if_pos hA, if_pos hC, hf]
      exact le_refl _
    · have hgt : 1 / 2 < Int.fract y := lt_of_le_of_ne (hA ▸ hfr) (Ne.symm hC)
      have hry : ⌊y⌋ + 1 ≤ round y := by
        rw [round_eq]
        exact Int.le_floor.mpr (by push_cast; linarith)
      simp only [roundEven, if_pos hA, if_neg hC]
      split_ifs <;> omega
    · have hlt : Int.fract x < 1 / 2 := lt_of_le_of_ne (hfr.trans_eq hC) hA
      have hrx : round x ≤ ⌊x⌋ := by
        rw [round_eq]
        have h3 : ⌊x + 1 / 2⌋ < ⌊x⌋ + 1 :=
          Int.floor_lt.mpr (by push_cast; linarith)
        omega
      simp only [roundEven, if_neg hA, if_pos hC]
      split_ifs <;> omega
    · simp only [roundEven, if_neg hA, if_neg hC, round_eq]
      exact Int.floor_mono (by linarith)

theorem round2_mono {x y : ℝ} (h : x ≤ y) : round2 x ≤ round2 y := by
  rw [round2, round2]
  have := roundEven_mono (mul_le_mul_of_nonneg_right h (by norm_num : (0 : ℝ) ≤ 100))
  have hcast : (roundEven (x * 100) : ℝ) ≤ (roundEven (y * 100) : ℝ) := by exact_mod_cast this
  linarith

theorem round2_intCast (n : ℤ) : round2 (n : ℝ) = n := by
  rw [round2]
  have h : (n : ℝ) * 100 = ((n * 100 : ℤ) : ℝ) := by push_cast; ring
  rw [h, roundEven_intCast]
  push_cast
  ring

theorem round2_bounds {x : ℝ} (h0 : 0 ≤ x) (h100 : x ≤ 100) :
    0 ≤ round2 x ∧ round2 x ≤ 100 := by
  constructor
  · have h1 : round2 (0 : ℝ) ≤ round2 x := round2_mono (by linarith)
    have h2 : round2 ((0 : ℤ) : ℝ) = ((0 : ℤ) : ℝ) := round2_intCast 0
    simp at h2
    linarith
  · have h1 : round2 x ≤ round2 (100 : ℝ) := round2_mono h100
    have h2 : round2 ((100 : ℤ) : ℝ) = ((100 : ℤ) : ℝ) := round2_intCast 100
    norm_num at h2
    linarith

/-! ## Clamp lemmas -/

theorem clamp_bounds (x : ℝ) : 0 ≤ clamp x 0 100 ∧ clamp x 0 100 ≤ 100 :=
  ⟨le_max_left 0 _, max_le (by norm_num) (min_le_left _ _)⟩

theorem clamp_mono {x y lo hi : ℝ} (h : x ≤ y) : clamp x lo hi ≤ clamp y lo hi :=
  max_le_max (le_refl _) (min_le_min (le_refl _) h)

/-! ## Tally lemmas -/

theorem bump_snd_sum (k : JValue) (l : List (JValue × ℕ)) :
    ((bump k l).map Prod.snd).sum = (l.map Prod.snd).sum + 1 := by
  induction l with
  | nil => simp [bump]
  | cons p t ih =>
      obtain ⟨k', v⟩ := p
      by_cases h : JValue.keyEq k' k
      · simp [bump, h]
        omega
      · simp [bump, h, ih]
        omega

theorem bumpStr_snd_sum (k : String) (l : List (String × ℕ)) :
    ((bumpStr k l).map Prod.snd).sum = (l.map Prod.snd).sum + 1 := by
  induction l with
  | nil => simp [bumpStr]
  | cons p t ih =>
      obtain ⟨k', v⟩ := p
      by_cases h : k' = k
      · simp [bumpStr, h]
        omega
      · simp [bumpStr, h, ih]
        omega

theorem tally_aux (ks : List JValue) (acc t : List (JValue × ℕ))
    (h : ks.foldlM (fun acc k => if k.hashable then some (bump k acc) else none) acc = some t) :
    (t.map Prod.snd).sum = (acc.map Prod.snd).sum + ks.length := by
  induction ks generalizing acc with
  | nil =>
      simp [List.foldlM] at h
      subst h
      simp
  | cons k ks ih =>
      rw [List.foldlM_cons] at h
      by_cases hk : k.hashable
      · rw [if_pos hk] at h
        simp only [Option.bind_eq_bind, Option.some_bind] at h
        have := ih _ h
        rw [this, bump_snd_sum]
        simp
        omega
      · rw [if_neg hk] at h
        simp at h

theorem tally_snd_sum (ks : List JValue) (t : List (JValue × ℕ))
    (h : tally ks = some t) : (t.map Prod.snd).sum = ks.length := by
  have := tally_aux ks [] t h
  simpa using this

/-! ## Claim C9: malformed-input tolerance of the normalizers -/

/-- C9: each normalizer, applied to the unparseable JSON string
`"not json"`, to `None`, or to the empty object `{}`, returns a
well-formed normalized structure with an empty issue list and zero
total count, without raising. -/
theorem C9_malformed_input_tolerance :
    normalize_flake8 (.str "not json") = some ⟨"flake8", [], 0, []⟩ ∧
    normalize_flake8 .null = some ⟨"flake8", [], 0, []⟩ ∧
    normalize_flake8 (.obj []) = some ⟨"flake8", [], 0, []⟩ ∧
    normalize_bandit (.str "not json") = some ⟨"bandit", [], 0, [], []⟩ ∧
    normalize_bandit .null = some ⟨"bandit", [], 0, [], []⟩ ∧
    normalize_bandit (.obj []) = some ⟨"bandit", [], 0, [], []⟩ :=
  ⟨rfl, rfl, rfl, rfl, rfl, rfl⟩

/-! ## Claim C10: internal count consistency of the normalizer outputs -/

/-- C10: whenever a normalizer returns (does not raise), its output
satisfies `counts.total = len(issues)`, and the per-key tallies
(`by_code` for the style tool; `by_severity` and `by_confidence`,
each independently, for the security tool) sum back to
`counts.total`. -/
theorem C10_normalizer_count_invariants :
    (∀ (raw : JValue) (out : FlakeNorm), normalize_flake8 raw = some out →
        out.total = out.issues.length ∧
        (out.by_code.map Prod.snd).sum = out.total) ∧
    (∀ (raw : JValue) (out : BanditNorm), normalize_bandit raw = some out →
        out.total = out.issues.length ∧
        (out.by_severity.map Prod.snd).sum = out.total ∧
        (out.by_confidence.map Prod.snd).sum = out.total) := by
  constructor
  · intro raw out h
    simp only [normalize_flake8, Option.map_eq_some'] at h
    obtain ⟨bc, hbc, hout⟩ := h
    subst hout
    refine ⟨rfl, ?_⟩
    have := tally_snd_sum _ _ hbc
    simpa using this
  · intro raw out h
    simp only [normalize_bandit, Option.bind_eq_bind, Option.bind_eq_some,
      Option.some.injEq] at h
    obtain ⟨bs, hbs, bc, hbc, hout⟩ := h
    subst hout
    refine ⟨rfl, ?_, ?_⟩
    · have := tally_snd_sum _ _ hbs
      simpa using this
    · have := tally_snd_sum _ _ hbc
      simpa using this

/-- Witness for C10 at a concrete input. -/
theorem C10_normalizer_count_invariants_witness :
    ∃ out : FlakeNorm,
      normalize_flake8 (.arr [.obj [("code", .str "E501")]]) = some out ∧
      out.total = out.issues.length ∧
      (out.by_code.map Prod.snd).sum = out.total := by
  have h : normalize_flake8 (.arr [.obj [("code", .str "E501")]]) =
      some ⟨"flake8", [⟨.null, .null, .null, .str "E501", .null, .null⟩], 1,
            [(.str "E501", 1)]⟩ := rfl
  exact ⟨_, h, C10_normalizer_count_invariants.1 _ _ h⟩


/-! ## Metrics lemmas -/

theorem SevCounts.bumpKey_sum (c : SevCounts) (s : String) :
    (c.bumpKey s).low + (c.bumpKey s).medium + (c.bumpKey s).high =
      c.low + c.medium + c.high + 1 := by
  unfold SevCounts.bumpKey
  split_ifs <;> simp <;> omega

/-- The invariant maintained by the `build_metrics` issue loop: the
tool tallies and the severity tallies always agree in total. -/
def accInv (acc : MetricsAcc) : Prop :=
  (acc.by_tool.map Prod.snd).sum = acc.sev.low + acc.sev.medium + acc.sev.high

theorem stepIssue_skip (acc : MetricsAcc) (it : JValue) (h : it.isObj = false) :
    stepIssue acc it = some acc := by
  cases it <;> first
    | rfl
    | simp [JValue.isObj] at h

theorem stepIssue_inv {acc acc' : MetricsAcc} {it : JValue}
    (h : stepIssue acc it = some acc') (hinv : accInv acc) : accInv acc' := by
  cases it with
  | obj kvs =>
      simp only [stepIssue, Option.bind_eq_bind, Option.bind_eq_some] at h
      obtain ⟨tool, htool, sev0, hsev0, h⟩ := h
      split at h
      · rw [Option.some_inj] at h
        subst h
        unfold accInv at hinv ⊢
        rw [bumpStr_snd_sum, SevCounts.bumpKey_sum]
        omega
      · exact absurd h (by simp)
  | null => simp only [stepIssue, Option.some_inj] at h; exact h ▸ hinv
  | bool b => simp only [stepIssue, Option.some_inj] at h; exact h ▸ hinv
  | int n => simp only [stepIssue, Option.some_inj] at h; exact h ▸ hinv
  | str s => simp only [stepIssue, Option.some_inj] at h; exact h ▸ hinv
  | arr xs => simp only [stepIssue, Option.some_inj] at h; exact h ▸ hinv

theorem foldIssues_inv (issues : List JValue) (acc acc' : MetricsAcc)
    (h : issues.foldlM stepIssue acc = some acc') (hinv : accInv acc) : accInv acc' := by
  induction issues generalizing acc with
  | nil =>
      simp [List.foldlM] at h
      subst h
      exact hinv
  | cons it t ih =>
      rw [List.foldlM_cons] at h
      cases hstep : stepIssue acc it with
      | none => rw [hstep] at h; simp at h
      | some a =>
          rw [hstep] at h
          simp only [Option.bind_eq_bind, Option.some_bind] at h
          exact ih _ h (stepIssue_inv hstep hinv)

theorem foldIssues_filter (issues : List JValue) (acc : MetricsAcc) :
    issues.foldlM stepIssue acc = (issues.filter JValue.isObj).foldlM stepIssue acc := by
  induction issues generalizing acc with
  | nil => rfl
  | cons it t ih =>
      by_cases hobj : it.isObj = true
      · have hf : List.filter JValue.isObj (it :: t) = it :: List.filter JValue.isObj t := by
          simp [List.filter_cons, hobj]
        rw [hf, List.foldlM_cons, List.foldlM_cons]
        cases hstep : stepIssue acc it with
        | none => simp
        | some a => simp [ih]
      · have hskip : stepIssue acc it = some acc :=
          stepIssue_skip acc it (by simpa using hobj)
        have hf : List.filter JValue.isObj (it :: t) = List.filter JValue.isObj t := by
          simp [List.filter_cons, hobj]
        rw [hf, List.foldlM_cons, hskip]
        simp [ih]

/-! ## Claim C5: totals consistency of `build_metrics` -/

/-- C5: non-mapping entries of the issue list are silently skipped
(filtering them away does not change the result), and whenever
`build_metrics` returns, `totals.issues` equals the sum of the
`by_severity` values and the sum of the `by_tool` values. -/
theorem C5_totals_consistency :
    (∀ (norms issues : List JValue),
        build_metrics norms (some issues) =
          build_metrics norms (some (issues.filter JValue.isObj))) ∧
    (∀ (norms issues : List JValue) (r : MetricsReport),
        build_metrics norms (some issues) = some r →
        r.total_issues = (r.by_tool.map Prod.snd).sum ∧
        r.total_issues = r.by_severity.low + r.by_severity.medium + r.by_severity.high) := by
  constructor
  · intro norms issues
    simp only [build_metrics]
    rw [foldIssues_filter]
  · intro norms issues r h
    simp only [build_metrics, Option.bind_eq_bind, Option.bind_eq_some,
      Option.some.injEq] at h
    obtain ⟨acc, hacc, hr⟩ := h
    subst hr
    exact ⟨rfl, foldIssues_inv _ _ _ hacc (by simp [accInv, acc0])⟩

/-- Witness for C5 at a concrete issue list containing a malformed
(non-mapping) entry. -/
theorem C5_totals_consistency_witness :
    (build_metrics [] (some [.obj [("tool", .str "flake8")], .int 7]) =
      build_metrics []
        (some ([JValue.obj [("tool", .str "flake8")], .int 7].filter JValue.isObj))) ∧
    ∃ r : MetricsReport,
      build_metrics [] (some [.obj [("tool", .str "flake8")], .int 7]) = some r ∧
      r.total_issues = (r.by_tool.map Prod.snd).sum ∧
      r.total_issues = r.by_severity.low + r.by_severity.medium + r.by_severity.high := by
  refine ⟨C5_totals_consistency.1 [] _, ?_⟩
  have hsome : (build_metrics [] (some [.obj [("tool", .str "flake8")], .int 7])).isSome
      = true := rfl
  rcases h : build_metrics [] (some [.obj [("tool", .str "flake8")], .int 7]) with _ | r
  · rw [h] at hsome; simp at hsome
  · exact ⟨r, rfl, C5_totals_consistency.2 [] _ r h⟩

/-! ## Claim C8: ranking truncation -/

/-- C8: whatever the issue list, the rankings are truncated —
`top_refactor_priority` has at most 5 entries, `most_recurring_issues`
at most 10, `top_files` at most 20. -/
theorem C8_ranking_truncation :
    ∀ (norms issues : List JValue) (r : MetricsReport),
      build_metrics norms (some issues) = some r →
      r.top_refactor_priority.length ≤ 5 ∧
      r.most_recurring_issues.length ≤ 10 ∧
      r.top_files.length ≤ 20 := by
  intro norms issues r h
  simp only [build_metrics, Option.bind_eq_bind, Option.bind_eq_some,
    Option.some.injEq] at h
  obtain ⟨acc, hacc, hr⟩ := h
  subst hr
  exact ⟨List.length_take_le _ _, List.length_take_le _ _, List.length_take_le _ _⟩

/-- Witness for C8 at a concrete input. -/
theorem C8_ranking_truncation_witness :
    ∃ r : MetricsReport, build_metrics [] (some []) = some r ∧
      r.top_refactor_priority.length ≤ 5 ∧
      r.most_recurring_issues.length ≤ 10 ∧
      r.top_files.length ≤ 20 := by
  have h : build_metrics [] (some []) =
      some ⟨1, 0, [("flake8", 0), ("bandit", 0)], ⟨0, 0, 0⟩, 0, [], [], [], []⟩ := rfl
  exact ⟨_, h, C8_ranking_truncation [] [] _ h⟩

/-! ## Claim C4: LOC pass-through into `totals.loc` -/

theorem build_metrics_loc (rawF rawB : JValue) (r : MetricsReport)
    (h : build_metrics [(normalize_flake8_unified rawF).toJValue,
                        (normalize_bandit_unified rawB).toJValue] none = some r) :
    r.loc = banditLoc (parseIfStr rawB) := by
  simp only [build_metrics, Option.bind_eq_bind, Option.bind_eq_some,
    Option.some.injEq] at h
  obtain ⟨acc, hacc, hr⟩ := h
  subst hr
  rfl

/-- C4: `totals.loc` of the metrics report equals the security tool's
`metrics._totals.loc` field when the normalization carried one, and
zero when no input source carried a LOC value. -/
theorem C4_loc_passthrough :
    (∀ (rawF rawB : JValue) (n : ℤ) (r : MetricsReport),
        build_metrics [(normalize_flake8_unified rawF).toJValue,
                       (normalize_bandit_unified rawB).toJValue] none = some r →
        (((parseIfStr rawB).lookup "metrics").bind (JValue.lookup "_totals")).bind
            (JValue.lookup "loc") = some (.int n) →
        r.loc = n) ∧
    (∀ (rawF rawB : JValue) (r : MetricsReport),
        build_metrics [(normalize_flake8_unified rawF).toJValue,
                       (normalize_bandit_unified rawB).toJValue] none = some r →
        (((parseIfStr rawB).lookup "metrics").bind (JValue.lookup "_totals")).bind
            (JValue.lookup "loc") = none →
        r.loc = 0) := by
  constructor
  · intro rawF rawB n r h hchain
    rw [build_metrics_loc rawF rawB r h]
    simp only [banditLoc]
    rw [hchain]
  · intro rawF rawB r h hchain
    rw [build_metrics_loc rawF rawB r h]
    simp only [banditLoc]
    rw [hchain]

/-- Witness for C4 at a concrete input carrying `loc = 123`. -/
theorem C4_loc_passthrough_witness :
    ∃ r : MetricsReport,
      build_metrics [(normalize_flake8_unified (.obj [])).toJValue,
        (normalize_bandit_unified
          (.obj [("metrics", .obj [("_totals", .obj [("loc", .int 123)])])])).toJValue]
        none = some r ∧ r.loc = 123 := by
  have hsome : (build_metrics [(normalize_flake8_unified (.obj [])).toJValue,
      (normalize_bandit_unified
        (.obj [("metrics", .obj [("_totals", .obj [("loc", .int 123)])])])).toJValue]
      none).isSome = true := rfl
  rcases h : build_metrics [(normalize_flake8_unified (.obj [])).toJValue,
      (normalize_bandit_unified
        (.obj [("metrics", .obj [("_totals", .obj [("loc", .int 123)])])])).toJValue]
      none with _ | r
  · rw [h] at hsome; simp at hsome
  · exact ⟨r, rfl, C4_loc_passthrough.1 _ _ 123 r h rfl⟩

/-! ## Scoring lemmas -/

theorem scoreCore_eq (low medium high loc : ℤ)
    (h1 : (-1 : ℚ) < dens low loc) (h2 : (-1 : ℚ) < dens medium loc)
    (h3 : (-1 : ℚ) < dens high loc) :
    scoreCore low medium high loc = some
      { final_score := round2 (clamp (100 -
          ((A_LOW : ℝ) * Real.log (1 + ((dens low loc : ℚ) : ℝ)) +
           (A_MED : ℝ) * Real.log (1 + ((dens medium loc : ℚ) : ℝ)) +
           (A_HIGH : ℝ) * Real.log (1 + ((dens high loc : ℚ) : ℝ)))) 0 100)
        penalty := round2
          ((A_LOW : ℝ) * Real.log (1 + ((dens low loc : ℚ) : ℝ)) +
           (A_MED : ℝ) * Real.log (1 + ((dens medium loc : ℚ) : ℝ)) +
           (A_HIGH : ℝ) * Real.log (1 + ((dens high loc : ℚ) : ℝ)))
        weight_low := A_LOW, weight_medium := A_MED, weight_high := A_HIGH
        breakdown_low := low, breakdown_medium := medium, breakdown_high := high
        loc := loc
        density_low := round2 ((dens low loc : ℚ) : ℝ)
        density_medium := round2 ((dens medium loc : ℚ) : ℝ)
        density_high := round2 ((dens high loc : ℚ) : ℝ)
        penalty_low := round2 ((A_LOW : ℝ) * Real.log (1 + ((dens low loc : ℚ) : ℝ)))
        penalty_medium := round2 ((A_MED : ℝ) * Real.log (1 + ((dens medium loc : ℚ) : ℝ)))
        penalty_high := round2 ((A_HIGH : ℝ) * Real.log (1 + ((dens high loc : ℚ) : ℝ))) } := by
  simp only [scoreCore, pyLog1p, if_pos h1, if_pos h2, if_pos h3,
    Option.bind_eq_bind, Option.some_bind]

theorem dens_nonneg {c loc : ℤ} (hc : 0 ≤ c) (hloc : 0 < loc) : (0 : ℚ) ≤ dens c loc := by
  unfold dens
  have h1 : (0 : ℚ) ≤ (c : ℚ) := by exact_mod_cast hc
  have h2 : (0 : ℚ) < (loc : ℚ) := by exact_mod_cast hloc
  positivity

theorem dens_mono {c1 c2 loc : ℤ} (h : c1 ≤ c2) (hloc : 0 < loc) :
    dens c1 loc ≤ dens c2 loc := by
  unfold dens
  have h2 : (0 : ℚ) < (loc : ℚ) := by exact_mod_cast hloc
  have hc : (c1 : ℚ) ≤ (c2 : ℚ) := by exact_mod_cast h
  have := (div_le_div_iff_of_pos_right h2).mpr hc
  exact mul_le_mul_of_nonneg_right this (by norm_num)

/-! ## Claim C3: score bounds and totality (corrected) -/

/-- C3 as stated is false on the code: negative severity counts are
not treated as zero — with `by_severity.low = -1000` and the fallback
LOC of 1000 the low density is exactly `-1`, so `math.log1p` raises a
`ValueError` and `compute_score` does not return. -/
theorem C3_score_bounds_counterexample :
    compute_score
      (.obj [("totals", .obj [("by_severity", .obj [("low", .int (-1000))])])]) = none := by
  have hs : severityCounts
      (.obj [("totals", .obj [("by_severity", .obj [("low", .int (-1000))])])]) =
      some (-1000, 0, 0) := rfl
  have hl : get_loc
      (.obj [("totals", .obj [("by_severity", .obj [("low", .int (-1000))])])]) =
      some 1000 := rfl
  have hm : max (1 : ℤ) 1000 = 1000 := rfl
  simp only [compute_score, hs, hl, Option.bind_eq_bind, Option.some_bind, hm]
  simp only [scoreCore, pyLog1p, dens]
  norm_num

/-- C3 (amended): whenever the count and LOC extraction of
`compute_score` succeed (`totals` and `by_severity` are mappings when
present) and the three coerced severity counts are non-negative,
`compute_score` returns without raising and its `final_score` lies in
`[0, 100]`. -/
theorem C3_score_bounds_amended :
    ∀ (metrics : JValue) (low medium high loc0 : ℤ),
      severityCounts metrics = some (low, medium, high) →
      get_loc metrics = some loc0 →
      0 ≤ low → 0 ≤ medium → 0 ≤ high →
      ∃ r : ScoreReport, compute_score metrics = some r ∧
        0 ≤ r.final_score ∧ r.final_score ≤ 100 := by
  intro metrics low medium high loc0 hs hl h1 h2 h3
  have hloc : (0 : ℤ) < max 1 loc0 := lt_of_lt_of_le zero_lt_one (le_max_left 1 loc0)
  have hd : ∀ c : ℤ, 0 ≤ c → (-1 : ℚ) < dens c (max 1 loc0) := fun c hc =>
    lt_of_lt_of_le (by norm_num) (dens_nonneg hc hloc)
  have e := scoreCore_eq low medium high (max 1 loc0) (hd _ h1) (hd _ h2) (hd _ h3)
  have hcs : compute_score metrics = scoreCore low medium high (max 1 loc0) := by
    simp only [compute_score, hs, hl, Option.bind_eq_bind, Option.some_bind]
  rw [e] at hcs
  exact ⟨_, hcs, (round2_bounds (clamp_bounds _).1 (clamp_bounds _).2).1,
    (round2_bounds (clamp_bounds _).1 (clamp_bounds _).2).2⟩

/-- Witness for the amended C3 at a concrete input. -/
theorem C3_score_bounds_amended_witness :
    ∃ r : ScoreReport,
      compute_score (.obj [("totals", .obj [("by_severity", .obj [("low", .int 3),
        ("medium", .int 1), ("high", .int 2)])])]) = some r ∧
      0 ≤ r.final_score ∧ r.final_score ≤ 100 :=
  C3_score_bounds_amended _ 3 1 2 1000 rfl rfl (by norm_num) (by norm_num) (by norm_num)

/-! ## Claim C7: zero-issue baseline -/

/-- C7: on a metrics input whose `by_severity` maps `low`, `medium`
and `high` each to zero, `compute_score` returns `final_score`
exactly 100.0 and `penalty` exactly 0.0. -/
theorem C7_zero_issue_baseline :
    ∃ r : ScoreReport,
      compute_score (.obj [("totals", .obj [("by_severity",
        .obj [("low", .int 0), ("medium", .int 0), ("high", .int 0)])])]) = some r ∧
      r.final_score = 100 ∧ r.penalty = 0 := by
  have hs : severityCounts (.obj [("totals", .obj [("by_severity",
      .obj [("low", .int 0), ("medium", .int 0), ("high", .int 0)])])]) =
      some (0, 0, 0) := rfl
  have hl : get_loc (.obj [("totals", .obj [("by_severity",
      .obj [("low", .int 0), ("medium", .int 0), ("high", .int 0)])])]) =
      some 1000 := rfl
  have hd : dens 0 (max 1 1000) = 0 := by norm_num [dens]
  have e := scoreCore_eq 0 0 0 (max 1 1000) (by rw [hd]; norm_num)
    (by rw [hd]; norm_num) (by rw [hd]; norm_num)
  rw [hd] at e
  have hlog : Real.log (1 + ((0 : ℚ) : ℝ)) = 0 := by
    norm_num [Real.log_one]
  rw [hlog] at e
  have hcs : compute_score (.obj [("totals", .obj [("by_severity",
      .obj [("low", .int 0), ("medium", .int 0), ("high", .int 0)])])]) =
      scoreCore 0 0 0 (max 1 1000) := by
    simp only [compute_score, hs, hl, Option.bind_eq_bind, Option.some_bind]
  rw [e] at hcs
  refine ⟨_, hcs, ?_, ?_⟩
  · show round2 (clamp (100 - ((A_LOW : ℝ) * 0 + (A_MED : ℝ) * 0 + (A_HIGH : ℝ) * 0)) 0 100)
        = 100
    have h1 : clamp (100 - ((A_LOW : ℝ) * 0 + (A_MED : ℝ) * 0 + (A_HIGH : ℝ) * 0)) 0 100
        = 100 := by
      norm_num [clamp]
    rw [h1]
    have := round2_intCast 100
    norm_num at this
    exact this
  · show round2 ((A_LOW : ℝ) * 0 + (A_MED : ℝ) * 0 + (A_HIGH : ℝ) * 0) = 0
    have h1 : (A_LOW : ℝ) * 0 + (A_MED : ℝ) * 0 + (A_HIGH : ℝ) * 0 = 0 := by ring
    rw [h1]
    have := round2_intCast 0
    norm_num at this
    exact this

/-! ## Claim C6: score monotonicity in each severity count -/

theorem pyLog1p_domain {d : ℚ} {x : ℝ} (h : pyLog1p d = some x) : (-1 : ℚ) < d := by
  by_contra hneg
  rw [pyLog1p, if_neg hneg] at h
  simp at h

theorem scoreCore_dens_domain {l m h loc : ℤ} {r : ScoreReport}
    (he : scoreCore l m h loc = some r) :
    (-1 : ℚ) < dens l loc ∧ (-1 : ℚ) < dens m loc ∧ (-1 : ℚ) < dens h loc := by
  simp only [scoreCore, Option.bind_eq_bind, Option.bind_eq_some] at he
  obtain ⟨a, ha, b, hb, c, hc, -⟩ := he
  exact ⟨pyLog1p_domain ha, pyLog1p_domain hb, pyLog1p_domain hc⟩

/-- C6: for two score inputs agreeing on LOC and on all severity
counts except one, where the second input has a strictly larger value
of that single count, whenever both scores are returned the second
final score is at most the first. -/
theorem C6_monotonicity :
    ∀ (m1 m2 : JValue) (l1 md1 hi1 l2 md2 hi2 loc0 : ℤ) (r1 r2 : ScoreReport),
      severityCounts m1 = some (l1, md1, hi1) →
      severityCounts m2 = some (l2, md2, hi2) →
      get_loc m1 = some loc0 →
      get_loc m2 = some loc0 →
      ((l1 < l2 ∧ md1 = md2 ∧ hi1 = hi2) ∨
       (l1 = l2 ∧ md1 < md2 ∧ hi1 = hi2) ∨
       (l1 = l2 ∧ md1 = md2 ∧ hi1 < hi2)) →
      compute_score m1 = some r1 →
      compute_score m2 = some r2 →
      r2.final_score ≤ r1.final_score := by
  intro m1 m2 l1 md1 hi1 l2 md2 hi2 loc0 r1 r2 hs1 hs2 hl1 hl2 hcase hc1 hc2
  have hle1 : l1 ≤ l2 := by rcases hcase with ⟨h, _, _⟩ | ⟨h, _, _⟩ | ⟨h, _, _⟩ <;> omega
  have hle2 : md1 ≤ md2 := by rcases hcase with ⟨_, h, _⟩ | ⟨_, h, _⟩ | ⟨_, h, _⟩ <;> omega
  have hle3 : hi1 ≤ hi2 := by rcases hcase with ⟨_, _, h⟩ | ⟨_, _, h⟩ | ⟨_, _, h⟩ <;> omega
  have hloc : (0 : ℤ) < max 1 loc0 := lt_of_lt_of_le zero_lt_one (le_max_left 1 loc0)
  have hcs1 : scoreCore l1 md1 hi1 (max 1 loc0) = some r1 := by
    rw [← hc1]
    simp only [compute_score, hs1, hl1, Option.bind_eq_bind, Option.some_bind]
  have hcs2 : scoreCore l2 md2 hi2 (max 1 loc0) = some r2 := by
    rw [← hc2]
    simp only [compute_score, hs2, hl2, Option.bind_eq_bind, Option.some_bind]
  obtain ⟨hd1, hd2, hd3⟩ := scoreCore_dens_domain hcs1
  have e1 := scoreCore_eq l1 md1 hi1 (max 1 loc0) hd1 hd2 hd3
  have e2 := scoreCore_eq l2 md2 hi2 (max 1 loc0)
    (lt_of_lt_of_le hd1 (dens_mono hle1 hloc))
    (lt_of_lt_of_le hd2 (dens_mono hle2 hloc))
    (lt_of_lt_of_le hd3 (dens_mono hle3 hloc))
  rw [hcs1, Option.some_inj] at e1
  rw [hcs2, Option.some_inj] at e2
  subst e1
  subst e2
  apply round2_mono
  apply clamp_mono
  have hterm : ∀ (c1 c2 : ℤ) (w : ℚ), (-1 : ℚ) < dens c1 (max 1 loc0) → c1 ≤ c2 → 0 ≤ w →
      (w : ℝ) * Real.log (1 + ((dens c1 (max 1 loc0) : ℚ) : ℝ)) ≤
      (w : ℝ) * Real.log (1 + ((dens c2 (max 1 loc0) : ℚ) : ℝ)) := by
    intro c1 c2 w hc1' hc12 hw
    apply mul_le_mul_of_nonneg_left ?_ (by exact_mod_cast hw)
    apply Real.log_le_log
    · have hr : (-1 : ℝ) < ((dens c1 (max 1 loc0) : ℚ) : ℝ) := by exact_mod_cast hc1'
      linarith
    · have hq := dens_mono hc12 hloc
      have hr : ((dens c1 (max 1 loc0) : ℚ) : ℝ) ≤ ((dens c2 (max 1 loc0) : ℚ) : ℝ) := by
        exact_mod_cast hq
      linarith
  have t1 := hterm l1 l2 A_LOW hd1 hle1 (by norm_num [A_LOW])
  have t2 := hterm md1 md2 A_MED hd2 hle2 (by norm_num [A_MED])
  have t3 := hterm hi1 hi2 A_HIGH hd3 hle3 (by norm_num [A_HIGH])
  linarith

/-- Witness for C6 at a concrete pair of inputs differing only in the
`low` count. -/
theorem C6_monotonicity_witness :
    ∃ r1 r2 : ScoreReport,
      compute_score (.obj [("totals", .obj [("by_severity", .obj [("low", .int 0)])])])
        = some r1 ∧
      compute_score (.obj [("totals", .obj [("by_severity", .obj [("low", .int 1)])])])
        = some r2 ∧
      r2.final_score ≤ r1.final_score := by
  have hd : ∀ c : ℤ, 0 ≤ c → (-1 : ℚ) < dens c (max 1 1000) := fun c hc =>
    lt_of_lt_of_le (by norm_num) (dens_nonneg hc (by norm_num))
  have e1 := scoreCore_eq 0 0 0 (max 1 1000) (hd 0 le_rfl) (hd 0 le_rfl) (hd 0 le_rfl)
  have e2 := scoreCore_eq 1 0 0 (max 1 1000) (hd 1 (by norm_num)) (hd 0 le_rfl) (hd 0 le_rfl)
  have hcs1 : compute_score
      (.obj [("totals", .obj [("by_severity", .obj [("low", .int 0)])])]) =
      scoreCore 0 0 0 (max 1 1000) := rfl
  have hcs2 : compute_score
      (.obj [("totals", .obj [("by_severity", .obj [("low", .int 1)])])]) =
      scoreCore 1 0 0 (max 1 1000) := rfl
  rw [e1] at hcs1
  rw [e2] at hcs2
  exact ⟨_, _, hcs1, hcs2,
    C6_monotonicity
      (.obj [("totals", .obj [("by_severity", .obj [("low", .int 0)])])])
      (.obj [("totals", .obj [("by_severity", .obj [("low", .int 1)])])])
      0 0 0 1 0 0 1000 _ _ rfl rfl rfl rfl
      (Or.inl ⟨by norm_num, rfl, rfl⟩) hcs1 hcs2⟩

/-! ## Claim C1: style-tool category and severity derivation -/

/-- C1 (spec-modelled): every style-tool issue record normalizes to a
unified issue whose category is derived from the rule-code prefix
(`F` → `bug_risk`, `E`/`W` → `style`, `C` → `maintainability`,
anything else or absent → `style`) and whose severity is `medium`
exactly when the code starts with `F`, else `low`; in particular
`"F401"` gives `bug_risk`/`medium`, `"E501"` gives `style`/`low` and
`"C901"` gives `maintainability`/`low`. -/
theorem C1_flake8_category_severity :
    (∀ c : String,
      (normalize_flake8_unified (.arr [.obj [("code", .str c)]])).issues.map
        (fun i => (i.getD "category", i.getD "severity")) =
      [(.str (if strBegins c "F" then "bug_risk"
              else if strBegins c "E" || strBegins c "W" then "style"
              else if strBegins c "C" then "maintainability"
              else "style"),
        .str (if strBegins c "F" then "medium" else "low"))]) ∧
    ((normalize_flake8_unified (.arr [.obj []])).issues.map
        (fun i => (i.getD "category", i.getD "severity")) =
      [(.str "style", .str "low")]) ∧
    ((normalize_flake8_unified (.arr [.obj [("code", .str "F401")]])).issues.map
        (fun i => (i.getD "category", i.getD "severity")) =
      [(.str "bug_risk", .str "medium")]) ∧
    ((normalize_flake8_unified (.arr [.obj [("code", .str "E501")]])).issues.map
        (fun i => (i.getD "category", i.getD "severity")) =
      [(.str "style", .str "low")]) ∧
    ((normalize_flake8_unified (.arr [.obj [("code", .str "C901")]])).issues.map
        (fun i => (i.getD "category", i.getD "severity")) =
      [(.str "maintainability", .str "low")]) :=
  ⟨fun _ => rfl, rfl, rfl, rfl, rfl⟩

/-! ## Claim C2: security-tool severity/confidence normalization -/

/-- C2 (spec-modelled): every security-tool result record normalizes
to a unified issue whose severity and confidence are the record's
`issue_severity`/`issue_confidence` fields lower-cased, with an absent
severity defaulting to `low`; the concrete raw input of the spec
normalizes to exactly one issue with `severity="high"`,
`confidence="medium"`, `file="a.py"`, `line=3`. -/
theorem C2_bandit_severity_confidence :
    (∀ (sevS confS : String) (f ln : JValue),
      (normalize_bandit_unified (.obj [("results", .arr [.obj
          [("filename", f), ("line_number", ln),
           ("issue_severity", .str sevS), ("issue_confidence", .str confS)]])])).issues.map
        (fun i => (i.getD "severity", i.getD "confidence")) =
      [(.str (pyLower sevS), .str (pyLower confS))]) ∧
    (∀ (f ln : JValue),
      (normalize_bandit_unified (.obj [("results", .arr [.obj
          [("filename", f), ("line_number", ln)]])])).issues.map
        (fun i => i.getD "severity") = [.str "low"]) ∧
    ((normalize_bandit_unified (.obj [("results", .arr [.obj
        [("filename", .str "a.py"), ("line_number", .int 3), ("test_id", .str "B101"),
         ("issue_severity", .str "HIGH"), ("issue_confidence", .str "MEDIUM"),
         ("issue_text", .str "assert used")]])])).issues =
      [.obj [("tool", .str "bandit"), ("rule_id", .str "B101"),
             ("category", .str "security"), ("severity", .str "high"),
             ("confidence", .str "medium"), ("file", .str "a.py"),
             ("line", .int 3), ("message", .str "assert used")]]) :=
  ⟨fun _ _ _ _ => rfl, fun _ _ => rfl, rfl⟩
